/-
Verification of the transmission-expansion-planning core (tepe):
a shallow embedding of `tepe/models.py` and `tepe/system.py` in Lean 4.

Python floats are modelled as exact rationals (ℚ); the fallible float
division `a / b` (which raises `ZeroDivisionError` on a zero divisor) is
modelled by `pyDiv`.  Mutation of the `System` object is modelled by
explicit state passing: every constraint-generation method returns the
updated `System` together with an optional raised error
(`System × Option String`), where `some e` means the Python method raised
an exception `e` after having performed the state updates made so far.
The external Gurobi solver is opaque: it is a parameter
`solve : GModel → SolverOutcome`.
-/
import Mathlib

set_option maxRecDepth 2000

namespace TEPE

/-! ## Data model (`tepe/models.py`) -/

/-- `Load` dataclass: a constant active-power demand. -/
structure Load where
  value : ℚ
deriving DecidableEq

/-- `PowerPlant` dataclass: id and rated capacity. -/
structure PowerPlant where
  _id : ℤ
  capacity : ℚ
deriving DecidableEq

/-- `Node` dataclass: id, attached loads and power plants. -/
structure Node where
  _id : ℤ
  loads : List Load
  power_plants : List PowerPlant
deriving DecidableEq

/-- `Node.__hash__`: hash of the id alone (Python `hash` of a small int is
the int itself). -/
def Node.pyHash (n : Node) : ℤ := n._id

/-- The dataclass-generated `Node.__eq__`: compares the tuple of all three
fields `(_id, loads, power_plants)`, not the id alone. -/
def Node.pyEq (a b : Node) : Bool :=
  decide (a._id = b._id) && decide (a.loads = b.loads) &&
    decide (a.power_plants = b.power_plants)

/-- `Node.total_load`: `np.sum` of the loads' values (0 for an empty list). -/
def Node.total_load (n : Node) : ℚ := (n.loads.map Load.value).sum

/-- `Node.total_generation_capacity`: `np.sum` of the plants' capacities
(0 for an empty list). -/
def Node.total_generation_capacity (n : Node) : ℚ :=
  (n.power_plants.map PowerPlant.capacity).sum

/-- `TransmissionLine` dataclass, with the source defaults
`cost_per_mile = 1e6` and `is_real = False`. -/
structure TransmissionLine where
  _id : String
  capacity : ℚ
  reactance : ℚ
  node_start : Node
  node_end : Node
  length : ℚ
  cost_per_mile : ℚ := 1000000
  is_real : Bool := false
deriving DecidableEq

/-- `TransmissionLine.capital_cost = cost_per_mile * length`. -/
def TransmissionLine.capital_cost (l : TransmissionLine) : ℚ :=
  l.cost_per_mile * l.length

/-! ## Python-semantics helpers -/

/-- Python float division: raises `ZeroDivisionError` when the divisor is
exactly zero, otherwise returns the exact quotient. -/
def pyDiv (a b : ℚ) : Except String ℚ :=
  if b = 0 then .error "ZeroDivisionError: float division by zero"
  else .ok (a / b)

/-- Python `set.add` on values whose `__eq__` is full structural equality
(`Node.pyEq` agrees with `=`): keep the first occurrence, in insertion
order. -/
def addUnique (acc : List Node) (n : Node) : List Node :=
  if n ∈ acc then acc else acc ++ [n]

/-- Python dict lookup over an insertion-ordered association list: a later
binding of the same key overwrites an earlier one. -/
def dictLookup {α β : Type} [DecidableEq α] : List (α × β) → α → Option β
  | [], _ => none
  | p :: rest, k =>
    match dictLookup rest k with
    | some v => some v
    | none => if p.1 = k then some p.2 else none

/-- The dict `{ks[j] : off + j}` built by zipping keys with consecutively
allocated solver-variable indices. -/
def mkVarMap {α : Type} (off : ℕ) : List α → List (α × ℕ)
  | [] => []
  | a :: as => (a, off) :: mkVarMap (off + 1) as

/-- Index of the first occurrence of `k` (the Python `list.index`). -/
def posOf {α : Type} [DecidableEq α] (k : α) : List α → ℕ
  | [] => 0
  | a :: as => if a = k then 0 else posOf k as + 1

/-! ## The optimization-problem handle (the Gurobi model, as the core
uses it, per spec §6) -/

/-- Kind of a declared decision variable. -/
inductive VType where
  | binary : VType
  | continuous : VType
deriving DecidableEq

/-- Arithmetic expressions over solver variables, as the source builds
them (`Var`/`LinExpr` terms; products are left-associated as in Python). -/
inductive Expr where
  | var : ℕ → Expr
  | const : ℚ → Expr
  | add : Expr → Expr → Expr
  | sub : Expr → Expr → Expr
  | mul : Expr → Expr → Expr
deriving DecidableEq

/-- `gb.quicksum`: sum of a list of expressions. -/
def quicksum (es : List Expr) : Expr := es.foldl Expr.add (Expr.const 0)

/-- Constraint sense (`<=`, `>=`, `==`). -/
inductive Rel where
  | le : Rel
  | ge : Rel
  | eqc : Rel
deriving DecidableEq

/-- A constraint added by `model.addConstr`. -/
structure Constr where
  lhs : Expr
  rel : Rel
  rhs : Expr
deriving DecidableEq

/-- Objective sense. -/
inductive Sense where
  | minimize : Sense
  | maximize : Sense
deriving DecidableEq

/-- The objective set by `model.setObjective`. -/
structure Objective where
  expr : Expr
  sense : Sense
deriving DecidableEq

/-- The state of the shared optimization-problem handle: declared
variables (identified by position), added constraints, and the objective. -/
structure GModel where
  vars : List VType
  constrs : List Constr
  objective : Option Objective

/-- The fresh model created by `gb.Model()` in `System.__init__`. -/
def GModel.empty : GModel := ⟨[], [], none⟩

/-- Outcome of the external solve call (spec §6: the solver signals
infeasibility/unboundedness distinctly from success). -/
inductive SolverOutcome where
  | optimal : ℚ → SolverOutcome
  | infeasible : SolverOutcome
  | unbounded : SolverOutcome

/-- Reading `model.objVal`: available exactly when the solve succeeded;
on an infeasible/unbounded model the attribute read raises (spec §6 only
provides the achieved objective value on success). -/
def objValOf : SolverOutcome → Except String ℚ
  | .optimal v => .ok v
  | _ => .error "AttributeError: unable to retrieve attribute objVal"

/-! ## `System` (`tepe/system.py`) -/

/-- The `System` object: constructor arguments, the owned model handle,
the attributes assigned by `generate_variables`, and `expansion_cost`.
`x` is the tupledict returned by `model.addVars` (keyed by the line's
enumeration index); the three `_vars_map` dicts are modelled as
insertion-ordered association lists. -/
structure System where
  transmission_lines : List TransmissionLine
  s_base : ℚ
  model : GModel
  x : ℕ → Option ℕ
  x_vars_map : List (TransmissionLine × ℕ)
  generators : List ℕ
  generator_vars_map : List (PowerPlant × ℕ)
  theta : List ℕ
  theta_vars_map : List (Node × ℕ)
  expansion_cost : Option ℚ

/-- `System.__init__`: store the lines and `s_base`, create a fresh
model, set `expansion_cost = None`.  The variable attributes do not exist
yet; they are modelled as empty. -/
def System.init (lines : List TransmissionLine) (sb : ℚ) : System :=
  { transmission_lines := lines
    s_base := sb
    model := GModel.empty
    x := fun _ => none
    x_vars_map := []
    generators := []
    generator_vars_map := []
    theta := []
    theta_vars_map := []
    expansion_cost := none }

/-- One step of the `System.nodes` set construction: add both endpoints
of a line. -/
def nodeStep (acc : List Node) (line : TransmissionLine) : List Node :=
  addUnique (addUnique acc line.node_start) line.node_end

/-- Deduplicated endpoints of the lines, in first-appearance order
(the `System.nodes` property's set construction). -/
def nodesOfLines (lines : List TransmissionLine) : List Node :=
  lines.foldl nodeStep []

/-- The `System.nodes` property. -/
def System.nodes (s : System) : List Node := nodesOfLines s.transmission_lines

/-- All plants reachable through a node list, concatenated in node order
(the `System.power_plants` property's double loop). -/
def plantsOfNodes (ns : List Node) : List PowerPlant :=
  ns.flatMap Node.power_plants

/-- The `System.power_plants` property. -/
def System.power_plants (s : System) : List PowerPlant := plantsOfNodes s.nodes

/-- The `System.transmission_line_count` property. -/
def System.transmission_line_count (s : System) : ℕ := s.transmission_lines.length

/-- The `System.node_count` property. -/
def System.node_count (s : System) : ℕ := s.nodes.length

/-- The `System.power_plant_count` property. -/
def System.power_plant_count (s : System) : ℕ := s.power_plants.length

/-- The list comprehension `[1 / line.reactance for line in lines]`,
stopping at the first raised `ZeroDivisionError`. -/
def susLoop : List TransmissionLine → Except String (List ℚ)
  | [] => .ok []
  | l :: rest =>
    match pyDiv 1 l.reactance with
    | .error e => .error e
    | .ok bi =>
      match susLoop rest with
      | .error e => .error e
      | .ok bs => .ok (bi :: bs)

/-- `System.get_susceptance_matrix`: `[1 / line.reactance for line in
self.transmission_lines]`; Python raises on a zero reactance. -/
def System.get_susceptance_matrix (s : System) : Except String (List ℚ) :=
  susLoop s.transmission_lines

/-- Append constraints to the owned model (`model.addConstr` calls). -/
def addConstrs (s : System) (cs : List Constr) : System :=
  { s with model := { s.model with constrs := s.model.constrs ++ cs } }

/-- `System.generate_variables`: one binary variable per line (tupledict
`x` and dict `x_vars_map`), one continuous variable per power plant, one
continuous variable (voltage angle) per node, allocated in that order on
the shared model. -/
def System.generate_variables (s : System) : System :=
  let base := s.model.vars.length
  let L := s.transmission_line_count
  let P := s.power_plant_count
  let N := s.node_count
  { s with
    model := { s.model with
      vars := s.model.vars ++
        (List.replicate L VType.binary ++
          (List.replicate P VType.continuous ++ List.replicate N VType.continuous)) }
    x := fun i => if i < L then some (base + i) else none
    x_vars_map := mkVarMap base s.transmission_lines
    generators := (List.range P).map (fun j => base + L + j)
    generator_vars_map := mkVarMap (base + L) s.power_plants
    theta := (List.range N).map (fun j => base + L + P + j)
    theta_vars_map := mkVarMap (base + L + P) s.nodes }

/-- Loop body of `generate_power_plant_restrictions`: for each plant,
`g_p <= capacity/s_base` and `g_p >= 0`.  Returns the constraints emitted
before any raised error, plus the error. -/
def ppLoop (sb : ℚ) (gmap : List (PowerPlant × ℕ)) :
    List PowerPlant → List Constr × Option String
  | [] => ([], none)
  | pp :: rest =>
    match pyDiv pp.capacity sb with
    | .error e => ([], some e)
    | .ok cap =>
      match dictLookup gmap pp with
      | none => ([], some "KeyError: power plant")
      | some g =>
        let r := ppLoop sb gmap rest
        ([⟨.var g, .le, .const cap⟩, ⟨.var g, .ge, .const 0⟩] ++ r.1, r.2)

/-- `System.generate_power_plant_restrictions`. -/
def System.generate_power_plant_restrictions (s : System) : System × Option String :=
  (addConstrs s (ppLoop s.s_base s.generator_vars_map s.power_plants).1,
    (ppLoop s.s_base s.generator_vars_map s.power_plants).2)

/-- The exact value of the IEEE-754 double `np.pi`. -/
def np_pi : ℚ := 884279719003555 / 281474976710656

/-- Loop body of `generate_angle_restrictions`: `θ <= np.pi` and
`θ >= -np.pi` for every angle variable. -/
def angleLoop : List ℕ → List Constr
  | [] => []
  | t :: rest =>
    [⟨.var t, .le, .const np_pi⟩, ⟨.var t, .ge, .const (-np_pi)⟩] ++ angleLoop rest

/-- `System.generate_angle_restrictions` (cannot raise). -/
def System.generate_angle_restrictions (s : System) : System :=
  addConstrs s (angleLoop s.theta)

/-- Loop body of `generate_line_restrictions` over `enumerate(lines)`
starting at index `i`: per line, the two candidate constraints
`-b[i]*(θ1-θ2)*x <= cap` and `-b[i]*(θ2-θ1)*x <= cap`, plus, when
`is_real`, the same two without the `x` factor. -/
def lineLoop (sb : ℚ) (tmap : List (Node × ℕ)) (xmap : List (TransmissionLine × ℕ))
    (b : List ℚ) : ℕ → List TransmissionLine → List Constr × Option String
  | _, [] => ([], none)
  | i, line :: rest =>
    match pyDiv line.capacity sb with
    | .error e => ([], some e)
    | .ok cap =>
      match dictLookup tmap line.node_start with
      | none => ([], some "KeyError: node_start")
      | some t1 =>
        match dictLookup tmap line.node_end with
        | none => ([], some "KeyError: node_end")
        | some t2 =>
          match dictLookup xmap line with
          | none => ([], some "KeyError: line")
          | some lcv =>
            match b[i]? with
            | none => ([], some "IndexError: susceptance")
            | some bi =>
              let cand : List Constr :=
                [⟨.mul (.mul (.const (-bi)) (.sub (.var t1) (.var t2))) (.var lcv),
                    .le, .const cap⟩,
                 ⟨.mul (.mul (.const (-bi)) (.sub (.var t2) (.var t1))) (.var lcv),
                    .le, .const cap⟩]
              let exist : List Constr :=
                if line.is_real then
                  [⟨.mul (.const (-bi)) (.sub (.var t1) (.var t2)), .le, .const cap⟩,
                   ⟨.mul (.const (-bi)) (.sub (.var t2) (.var t1)), .le, .const cap⟩]
                else []
              let r := lineLoop sb tmap xmap b (i + 1) rest
              (cand ++ exist ++ r.1, r.2)

/-- `System.generate_line_restrictions`: compute the susceptance vector
(which can raise), then run the line loop. -/
def System.generate_line_restrictions (s : System) : System × Option String :=
  match s.get_susceptance_matrix with
  | .error e => (s, some e)
  | .ok b =>
    (addConstrs s (lineLoop s.s_base s.theta_vars_map s.x_vars_map b 0 s.transmission_lines).1,
      (lineLoop s.s_base s.theta_vars_map s.x_vars_map b 0 s.transmission_lines).2)

/-- Inner loop of `generate_node_restrictions` for one node: the signed,
candidate-weighted flow term of every incident line, plus the
unconditional term when the line `is_real`. -/
def nodeTermsLoop (tmap : List (Node × ℕ)) (xmap : List (TransmissionLine × ℕ))
    (b : List ℚ) (node : Node) : ℕ → List TransmissionLine → List Expr × Option String
  | _, [] => ([], none)
  | i, line :: rest =>
    if line.node_start = node then
      match b[i]?, dictLookup tmap line.node_start, dictLookup tmap line.node_end,
          dictLookup xmap line with
      | some bi, some t1, some t2, some lcv =>
        let terms : List Expr :=
          [.mul (.mul (.const bi) (.sub (.var t1) (.var t2))) (.var lcv)] ++
            (if line.is_real then [.mul (.const bi) (.sub (.var t1) (.var t2))] else [])
        let r := nodeTermsLoop tmap xmap b node (i + 1) rest
        (terms ++ r.1, r.2)
      | _, _, _, _ => ([], some "KeyError: node term")
    else if line.node_end = node then
      match b[i]?, dictLookup tmap line.node_start, dictLookup tmap line.node_end,
          dictLookup xmap line with
      | some bi, some t1, some t2, some lcv =>
        let terms : List Expr :=
          [.mul (.mul (.const bi) (.sub (.var t2) (.var t1))) (.var lcv)] ++
            (if line.is_real then [.mul (.const bi) (.sub (.var t2) (.var t1))] else [])
        let r := nodeTermsLoop tmap xmap b node (i + 1) rest
        (terms ++ r.1, r.2)
      | _, _, _, _ => ([], some "KeyError: node term")
    else
      nodeTermsLoop tmap xmap b node (i + 1) rest

/-- The dict lookups `[gmap[pp] for pp in node.power_plants]`, raising
(`none`) when any plant is missing from the map. -/
def lookupAll (gmap : List (PowerPlant × ℕ)) : List PowerPlant → Option (List ℕ)
  | [] => some []
  | pp :: rest =>
    match dictLookup gmap pp with
    | none => none
    | some g => (lookupAll gmap rest).map (fun gs => g :: gs)

/-- Outer loop of `generate_node_restrictions`: per node, the balance
constraint `quicksum(generators) - loads_pu - quicksum(line_terms) == 0`. -/
def nodeLoop (sb : ℚ) (gmap : List (PowerPlant × ℕ)) (tmap : List (Node × ℕ))
    (xmap : List (TransmissionLine × ℕ)) (b : List ℚ)
    (lines : List TransmissionLine) : List Node → List Constr × Option String
  | [] => ([], none)
  | node :: rest =>
    match pyDiv node.total_load sb with
    | .error e => ([], some e)
    | .ok loads_pu =>
      match lookupAll gmap node.power_plants with
      | none => ([], some "KeyError: generator")
      | some gs =>
        match nodeTermsLoop tmap xmap b node 0 lines with
        | (_, some e) => ([], some e)
        | (terms, none) =>
          let c : Constr :=
            ⟨.sub (.sub (quicksum (gs.map .var)) (.const loads_pu)) (quicksum terms),
              .eqc, .const 0⟩
          let r := nodeLoop sb gmap tmap xmap b lines rest
          (c :: r.1, r.2)

/-- `System.generate_node_restrictions`. -/
def System.generate_node_restrictions (s : System) : System × Option String :=
  match s.get_susceptance_matrix with
  | .error e => (s, some e)
  | .ok b =>
    (addConstrs s
        (nodeLoop s.s_base s.generator_vars_map s.theta_vars_map s.x_vars_map b
          s.transmission_lines s.nodes).1,
      (nodeLoop s.s_base s.generator_vars_map s.theta_vars_map s.x_vars_map b
        s.transmission_lines s.nodes).2)

/-- Sequencing of two mutating steps: the second runs only when the first
did not raise (the state mutated so far is kept either way). -/
def pyseq (p : System × Option String) (f : System → System × Option String) :
    System × Option String :=
  match p.2 with
  | some e => (p.1, some e)
  | none => f p.1

/-- `System.generate_restrictions`: power-plant, angle, line, node
restrictions, in source order. -/
def System.generate_restrictions (s : System) : System × Option String :=
  pyseq (pyseq (pyseq s.generate_power_plant_restrictions
        (fun s1 => (s1.generate_angle_restrictions, none)))
      (fun s2 => s2.generate_line_restrictions))
    (fun s3 => s3.generate_node_restrictions)

/-- The objective comprehension `self.x[str(i)] * line.capital_cost for
i, line in enumerate(self.transmission_lines)`, starting at index `i`. -/
def objLoop (x : ℕ → Option ℕ) : ℕ → List TransmissionLine → Option (List Expr)
  | _, [] => some []
  | i, line :: rest =>
    match x i with
    | none => none
    | some xi =>
      (objLoop x (i + 1) rest).map
        (fun es => Expr.mul (.var xi) (.const line.capital_cost) :: es)

/-- `System.optimize`: generate variables, generate restrictions, set the
minimization objective `quicksum(x_i * capital_cost_i)`, call the external
solver, and read `objVal` into `expansion_cost`.  Any raise leaves the
mutations already performed in place. -/
def System.optimize (solve : GModel → SolverOutcome) (s : System) :
    System × Option String :=
  match (s.generate_variables).generate_restrictions with
  | (s2, some e) => (s2, some e)
  | (s2, none) =>
    match objLoop s2.x 0 s2.transmission_lines with
    | none => (s2, some "KeyError: objective")
    | some es =>
      match objValOf (solve { s2.model with
          objective := some ⟨quicksum es, Sense.minimize⟩ }) with
      | .error e =>
        ({ s2 with model := { s2.model with
            objective := some ⟨quicksum es, Sense.minimize⟩ } }, some e)
      | .ok v =>
        ({ s2 with
            model := { s2.model with
              objective := some ⟨quicksum es, Sense.minimize⟩ }
            expansion_cost := some v }, none)

/-! ## Spec-side definitions

These restate, in direct form, what the specification's sentences (and the
frozen claims derived from them) say the constraint generator and the
objective emit.  The claim theorems below prove that the source-side
pipeline produces exactly these. -/

/-- The binary build variable `x_i` of line `l`: its enumeration index in
the input list. -/
def xIndexOf (lines : List TransmissionLine) (l : TransmissionLine) : ℕ :=
  posOf l lines

/-- The generation variable `g_p` of plant `pp`: allocated after the `L`
binary variables. -/
def genIndexOf (lines : List TransmissionLine) (pp : PowerPlant) : ℕ :=
  lines.length + posOf pp (plantsOfNodes (nodesOfLines lines))

/-- The voltage-angle variable `θ_n` of node `n`: allocated after the
binary and generation variables. -/
def thetaIndexOf (lines : List TransmissionLine) (n : Node) : ℕ :=
  lines.length + (plantsOfNodes (nodesOfLines lines)).length +
    posOf n (nodesOfLines lines)

/-- Claim C1's flow-limit constraints for one line, with `θ` and `x`
variable indices given by `f` and `g`: the two bilinear candidate
constraints `-b·(θs-θe)·x ≤ cap` and `-b·(θe-θs)·x ≤ cap` with
`b = 1/reactance` and `cap = capacity/s_base`, plus, exactly when
`is_real`, the same two inequalities without the `x` factor. -/
def claimLineChunk (sb : ℚ) (f : Node → ℕ) (g : TransmissionLine → ℕ)
    (l : TransmissionLine) : List Constr :=
  let bi := 1 / l.reactance
  let cap := l.capacity / sb
  let t1 := f l.node_start
  let t2 := f l.node_end
  [⟨.mul (.mul (.const (-bi)) (.sub (.var t1) (.var t2))) (.var (g l)),
      .le, .const cap⟩,
   ⟨.mul (.mul (.const (-bi)) (.sub (.var t2) (.var t1))) (.var (g l)),
      .le, .const cap⟩] ++
    (if l.is_real then
      [⟨.mul (.const (-bi)) (.sub (.var t1) (.var t2)), .le, .const cap⟩,
       ⟨.mul (.const (-bi)) (.sub (.var t2) (.var t1)), .le, .const cap⟩]
    else [])

/-- Claim C1's full emitted flow-limit constraint list. -/
def claimLineConstrs (lines : List TransmissionLine) (sb : ℚ) : List Constr :=
  lines.flatMap (claimLineChunk sb (thetaIndexOf lines) (xIndexOf lines))

/-- Claim C2's signed flow terms of node `n`: every incident line
contributes `b·(θ_n-θ_other)·x` with the sign fixed by whether `n` is the
line's start or end, and every `is_real` incident line additionally
contributes the same term without the `x` weight. -/
def claimNodeTerms (f : Node → ℕ) (g : TransmissionLine → ℕ) (n : Node)
    (lines : List TransmissionLine) : List Expr :=
  lines.flatMap (fun l =>
    let bi := 1 / l.reactance
    if l.node_start = n then
      [.mul (.mul (.const bi) (.sub (.var (f l.node_start)) (.var (f l.node_end))))
          (.var (g l))] ++
        (if l.is_real then
          [.mul (.const bi) (.sub (.var (f l.node_start)) (.var (f l.node_end)))]
        else [])
    else if l.node_end = n then
      [.mul (.mul (.const bi) (.sub (.var (f l.node_end)) (.var (f l.node_start))))
          (.var (g l))] ++
        (if l.is_real then
          [.mul (.const bi) (.sub (.var (f l.node_end)) (.var (f l.node_start)))]
        else [])
    else [])

/-- Claim C2's balance constraint of node `n`:
`Σ(generation at n) - total_load/s_base - Σ(signed line terms) = 0`. -/
def claimNodeConstr (lines : List TransmissionLine) (sb : ℚ) (n : Node) : Constr :=
  ⟨.sub (.sub (quicksum (n.power_plants.map (fun pp => Expr.var (genIndexOf lines pp))))
        (.const (n.total_load / sb)))
      (quicksum (claimNodeTerms (thetaIndexOf lines) (xIndexOf lines) n lines)),
    .eqc, .const 0⟩

/-- Claim C3's objective terms: the `i`-th term is `x_i * capital_cost_i`;
every line appears, whether or not it `is_real`. -/
def claimObjTerms : ℕ → List TransmissionLine → List Expr
  | _, [] => []
  | i, line :: rest =>
    Expr.mul (.var i) (.const line.capital_cost) :: claimObjTerms (i + 1) rest

/-- Number of decision variables one `optimize()` call adds for a given
line list: `L` binaries, one generator per plant, one angle per node. -/
def varDelta (lines : List TransmissionLine) : ℕ :=
  lines.length + (plantsOfNodes (nodesOfLines lines)).length +
    (nodesOfLines lines).length

/-- Number of constraints one successful `optimize()` call adds:
2 per plant, 2 per angle, 2 (plus 2 if `is_real`) per line, 1 per node. -/
def constrDelta (lines : List TransmissionLine) : ℕ :=
  2 * (plantsOfNodes (nodesOfLines lines)).length +
    2 * (nodesOfLines lines).length +
    (2 * lines.length + 2 * lines.countP (fun l => l.is_real)) +
    (nodesOfLines lines).length


/-! ## A small concrete network (used by witnesses and counterexamples) -/

/-- A node with one load and one plant. -/
def nodeA : Node := ⟨1, [⟨80⟩], [⟨1, 150⟩]⟩

/-- A node with no loads and no plants. -/
def nodeB : Node := ⟨2, [], []⟩

/-- An existing line between `nodeA` and `nodeB`. -/
def demoLine : TransmissionLine :=
  { _id := "1-2", capacity := 100, reactance := 2, node_start := nodeA,
    node_end := nodeB, length := 40, is_real := true }

/-- A candidate line between the same nodes. -/
def demoLine2 : TransmissionLine :=
  { _id := "1-2b", capacity := 50, reactance := 4, node_start := nodeA,
    node_end := nodeB, length := 10 }

/-- The two-line demonstration network. -/
def demoLines : List TransmissionLine := [demoLine, demoLine2]

/-- A line whose reactance is zero (malformed topology). -/
def zeroReactanceLine : TransmissionLine :=
  { _id := "z", capacity := 100, reactance := 0, node_start := nodeA,
    node_end := nodeB, length := 10 }

/-- A line whose reactance is negative (malformed topology). -/
def negReactanceLine : TransmissionLine :=
  { _id := "n", capacity := 100, reactance := -2, node_start := nodeA,
    node_end := nodeB, length := 10 }

/-- Two distinct Node values that carry the same id but different loads. -/
def nodeSameIdA : Node := ⟨7, [⟨5⟩], []⟩

/-- See `nodeSameIdA`. -/
def nodeSameIdB : Node := ⟨7, [], []⟩

/-- A line whose two endpoints are distinct objects with equal ids. -/
def sameIdLine : TransmissionLine :=
  { _id := "7-7", capacity := 100, reactance := 2, node_start := nodeSameIdA,
    node_end := nodeSameIdB, length := 1 }

/-! ## Basic lemmas -/

lemma pyDiv_ok {b : ℚ} (h : b ≠ 0) (a : ℚ) : pyDiv a b = .ok (a / b) := by
  simp [pyDiv, h]

lemma susLoop_ok :
    ∀ (ls : List TransmissionLine), (∀ l ∈ ls, l.reactance ≠ 0) →
      susLoop ls = .ok (ls.map (fun l => 1 / l.reactance))
  | [], _ => rfl
  | l :: rest, h => by
    have ih := susLoop_ok rest (fun x hx => h x (List.mem_cons_of_mem _ hx))
    simp [susLoop, ih, pyDiv_ok (h l (List.mem_cons_self _ _)) 1]

lemma get_susceptance_matrix_ok (s : System)
    (h : ∀ l ∈ s.transmission_lines, l.reactance ≠ 0) :
    s.get_susceptance_matrix =
      .ok (s.transmission_lines.map (fun l => 1 / l.reactance)) :=
  susLoop_ok s.transmission_lines h

lemma dictLookup_mkVarMap_of_not_mem {α : Type} [DecidableEq α] {k : α} :
    ∀ (ks : List α) (off : ℕ), k ∉ ks → dictLookup (mkVarMap off ks) k = none
  | [], _, _ => rfl
  | a :: as, off, h => by
    have ha : ¬(a = k) := fun e => h (e ▸ List.mem_cons_self a as)
    have ih := dictLookup_mkVarMap_of_not_mem as (off + 1)
      (fun hm => h (List.mem_cons_of_mem _ hm))
    simp [mkVarMap, dictLookup, ih, ha]

lemma dictLookup_mkVarMap {α : Type} [DecidableEq α] {k : α} :
    ∀ (ks : List α) (off : ℕ), ks.Nodup → k ∈ ks →
      dictLookup (mkVarMap off ks) k = some (off + posOf k ks)
  | [], _, _, hmem => absurd hmem (List.not_mem_nil _)
  | a :: as, off, hnd, hmem => by
    by_cases hk : k ∈ as
    · have ha : ¬(a = k) := by
        rintro rfl
        exact (List.nodup_cons.1 hnd).1 hk
      have ih := dictLookup_mkVarMap as (off + 1) (List.nodup_cons.1 hnd).2 hk
      simp only [mkVarMap, dictLookup, ih, posOf, ha, if_false, Option.some.injEq]
      omega
    · have ha : a = k := by
        rcases List.mem_cons.1 hmem with rfl | h
        · rfl
        · exact absurd h hk
      have h0 := dictLookup_mkVarMap_of_not_mem (k := k) as (off + 1) hk
      simp [mkVarMap, dictLookup, h0, posOf, ha]

lemma mem_addUnique_self (acc : List Node) (n : Node) : n ∈ addUnique acc n := by
  by_cases h : n ∈ acc <;> simp [addUnique, h]

lemma mem_addUnique_of_mem {m : Node} (acc : List Node) (n : Node) (h : m ∈ acc) :
    m ∈ addUnique acc n := by
  by_cases hn : n ∈ acc <;> simp [addUnique, hn, h]

lemma addUnique_nodup {acc : List Node} (h : acc.Nodup) (n : Node) :
    (addUnique acc n).Nodup := by
  by_cases hn : n ∈ acc
  · simpa [addUnique, hn] using h
  · simp [addUnique, hn, List.nodup_append, h]

lemma foldl_nodeStep_nodup :
    ∀ (ls : List TransmissionLine) (acc : List Node), acc.Nodup →
      (ls.foldl nodeStep acc).Nodup
  | [], _, h => h
  | _ :: rest, acc, h =>
    foldl_nodeStep_nodup rest _ (addUnique_nodup (addUnique_nodup h _) _)

lemma mem_foldl_nodeStep_of_mem :
    ∀ (ls : List TransmissionLine) (acc : List Node) {m : Node}, m ∈ acc →
      m ∈ ls.foldl nodeStep acc
  | [], _, _, h => h
  | _ :: rest, acc, m, h =>
    mem_foldl_nodeStep_of_mem rest _
      (mem_addUnique_of_mem _ _ (mem_addUnique_of_mem _ _ h))

lemma endpoints_mem_foldl_nodeStep :
    ∀ (ls : List TransmissionLine) (acc : List Node) {l : TransmissionLine},
      l ∈ ls → l.node_start ∈ ls.foldl nodeStep acc ∧
        l.node_end ∈ ls.foldl nodeStep acc
  | [], _, _, h => absurd h (List.not_mem_nil _)
  | a :: rest, acc, l, h => by
    rcases List.mem_cons.1 h with rfl | h
    · constructor
      · exact mem_foldl_nodeStep_of_mem rest _
          (mem_addUnique_of_mem _ _ (mem_addUnique_self _ _))
      · exact mem_foldl_nodeStep_of_mem rest _ (mem_addUnique_self _ _)
    · exact endpoints_mem_foldl_nodeStep rest _ h

lemma nodesOfLines_nodup (lines : List TransmissionLine) :
    (nodesOfLines lines).Nodup :=
  foldl_nodeStep_nodup lines [] List.nodup_nil

lemma node_start_mem_nodesOfLines {lines : List TransmissionLine}
    {l : TransmissionLine} (h : l ∈ lines) : l.node_start ∈ nodesOfLines lines :=
  (endpoints_mem_foldl_nodeStep lines [] h).1

lemma node_end_mem_nodesOfLines {lines : List TransmissionLine}
    {l : TransmissionLine} (h : l ∈ lines) : l.node_end ∈ nodesOfLines lines :=
  (endpoints_mem_foldl_nodeStep lines [] h).2

lemma mem_plantsOfNodes {ns : List Node} {n : Node} {pp : PowerPlant}
    (hn : n ∈ ns) (hp : pp ∈ n.power_plants) : pp ∈ plantsOfNodes ns :=
  List.mem_flatMap.2 ⟨n, hn, hp⟩

/-! ## Loop correspondence lemmas: each source loop, on inputs whose
lookups resolve, emits exactly the spec-side constraint/term lists. -/

lemma lookupAll_ok (gmap : List (PowerPlant × ℕ)) (gF : PowerPlant → ℕ) :
    ∀ (ps : List PowerPlant), (∀ pp ∈ ps, dictLookup gmap pp = some (gF pp)) →
      lookupAll gmap ps = some (ps.map gF)
  | [], _ => rfl
  | pp :: rest, h => by
    have ih := lookupAll_ok gmap gF rest (fun q hq => h q (List.mem_cons_of_mem _ hq))
    simp [lookupAll, h pp (List.mem_cons_self _ _), ih]

lemma lineLoop_ok (sb : ℚ) (tmap : List (Node × ℕ))
    (xmap : List (TransmissionLine × ℕ)) (b : List ℚ) (f : Node → ℕ)
    (g : TransmissionLine → ℕ) (hsb : sb ≠ 0) :
    ∀ (suffix : List TransmissionLine) (i0 : ℕ),
      (∀ (k : ℕ) (l : TransmissionLine), suffix[k]? = some l →
        b[i0 + k]? = some (1 / l.reactance)) →
      (∀ l ∈ suffix, dictLookup tmap l.node_start = some (f l.node_start)) →
      (∀ l ∈ suffix, dictLookup tmap l.node_end = some (f l.node_end)) →
      (∀ l ∈ suffix, dictLookup xmap l = some (g l)) →
      lineLoop sb tmap xmap b i0 suffix =
        (suffix.flatMap (claimLineChunk sb f g), none)
  | [], _, _, _, _, _ => rfl
  | line :: rest, i0, hb, ht1, ht2, hx => by
    have hb0 : b[i0]? = some (1 / line.reactance) := by
      simpa using hb 0 line (by simp)
    have ih := lineLoop_ok sb tmap xmap b f g hsb rest (i0 + 1)
      (fun k l hk => by
        have h2 := hb (k + 1) l (by simpa using hk)
        rw [show i0 + 1 + k = i0 + (k + 1) by omega]
        exact h2)
      (fun l hl => ht1 l (List.mem_cons_of_mem _ hl))
      (fun l hl => ht2 l (List.mem_cons_of_mem _ hl))
      (fun l hl => hx l (List.mem_cons_of_mem _ hl))
    simp [lineLoop, pyDiv_ok hsb, ht1 line (List.mem_cons_self _ _),
      ht2 line (List.mem_cons_self _ _), hx line (List.mem_cons_self _ _),
      hb0, ih, claimLineChunk]

lemma nodeTermsLoop_ok (tmap : List (Node × ℕ)) (xmap : List (TransmissionLine × ℕ))
    (b : List ℚ) (node : Node) (f : Node → ℕ) (g : TransmissionLine → ℕ) :
    ∀ (suffix : List TransmissionLine) (i0 : ℕ),
      (∀ (k : ℕ) (l : TransmissionLine), suffix[k]? = some l →
        b[i0 + k]? = some (1 / l.reactance)) →
      (∀ l ∈ suffix, dictLookup tmap l.node_start = some (f l.node_start)) →
      (∀ l ∈ suffix, dictLookup tmap l.node_end = some (f l.node_end)) →
      (∀ l ∈ suffix, dictLookup xmap l = some (g l)) →
      nodeTermsLoop tmap xmap b node i0 suffix =
        (claimNodeTerms f g node suffix, none)
  | [], _, _, _, _, _ => rfl
  | line :: rest, i0, hb, ht1, ht2, hx => by
    have hb0 : b[i0]? = some (1 / line.reactance) := by
      simpa using hb 0 line (by simp)
    have ih := nodeTermsLoop_ok tmap xmap b node f g rest (i0 + 1)
      (fun k l hk => by
        have h2 := hb (k + 1) l (by simpa using hk)
        rw [show i0 + 1 + k = i0 + (k + 1) by omega]
        exact h2)
      (fun l hl => ht1 l (List.mem_cons_of_mem _ hl))
      (fun l hl => ht2 l (List.mem_cons_of_mem _ hl))
      (fun l hl => hx l (List.mem_cons_of_mem _ hl))
    by_cases hs : line.node_start = node
    · subst hs
      simp [nodeTermsLoop, hb0, ht1 line (List.mem_cons_self _ _),
        ht2 line (List.mem_cons_self _ _), hx line (List.mem_cons_self _ _),
        ih, claimNodeTerms]
    · by_cases he : line.node_end = node
      · subst he
        simp [nodeTermsLoop, hs, hb0, ht1 line (List.mem_cons_self _ _),
          ht2 line (List.mem_cons_self _ _), hx line (List.mem_cons_self _ _),
          ih, claimNodeTerms]
      · simp [nodeTermsLoop, hs, he, ih, claimNodeTerms]

lemma nodeLoop_ok (sb : ℚ) (gmap : List (PowerPlant × ℕ)) (tmap : List (Node × ℕ))
    (xmap : List (TransmissionLine × ℕ)) (b : List ℚ)
    (lines : List TransmissionLine) (gF : PowerPlant → ℕ) (f : Node → ℕ)
    (g : TransmissionLine → ℕ) (hsb : sb ≠ 0)
    (hterms : ∀ n : Node, nodeTermsLoop tmap xmap b n 0 lines =
      (claimNodeTerms f g n lines, none)) :
    ∀ (ns : List Node),
      (∀ n ∈ ns, ∀ pp ∈ n.power_plants, dictLookup gmap pp = some (gF pp)) →
      nodeLoop sb gmap tmap xmap b lines ns =
        (ns.map (fun n =>
          ⟨.sub (.sub (quicksum (n.power_plants.map (fun pp => Expr.var (gF pp))))
                (.const (n.total_load / sb)))
              (quicksum (claimNodeTerms f g n lines)),
            .eqc, .const 0⟩), none)
  | [], _ => rfl
  | node :: rest, h => by
    have hga := lookupAll_ok gmap gF node.power_plants
      (fun pp hp => h node (List.mem_cons_self _ _) pp hp)
    have ih := nodeLoop_ok sb gmap tmap xmap b lines gF f g hsb hterms rest
      (fun n hn pp hp => h n (List.mem_cons_of_mem _ hn) pp hp)
    simp [nodeLoop, pyDiv_ok hsb, hga, hterms node, ih, List.map_map,
      Function.comp_def]

lemma objLoop_ok (x : ℕ → Option ℕ) :
    ∀ (suffix : List TransmissionLine) (i0 : ℕ),
      (∀ k, k < suffix.length → x (i0 + k) = some (i0 + k)) →
      objLoop x i0 suffix = some (claimObjTerms i0 suffix)
  | [], _, _ => rfl
  | line :: rest, i0, h => by
    have h0 : x i0 = some i0 := by simpa using h 0 (by simp)
    have ih := objLoop_ok x rest (i0 + 1) (fun k hk => by
      have h2 := h (k + 1) (by simpa using hk)
      rw [show i0 + 1 + k = i0 + (k + 1) by omega]
      exact h2)
    simp [objLoop, h0, ih, claimObjTerms]

lemma claimObjTerms_length : ∀ (ls : List TransmissionLine) (i0 : ℕ),
    (claimObjTerms i0 ls).length = ls.length
  | [], _ => rfl
  | _ :: rest, i0 => by simp [claimObjTerms, claimObjTerms_length rest (i0 + 1)]

/-! ## State-shape lemmas -/

lemma addConstrs_addConstrs (s : System) (cs ds : List Constr) :
    addConstrs (addConstrs s cs) ds = addConstrs s (cs ++ ds) := by
  simp [addConstrs]

lemma addConstrs_nil (s : System) : addConstrs s [] = s := by
  simp [addConstrs]

lemma pyseq_snd_none {p : System × Option String} {f : System → System × Option String}
    (h : (pyseq p f).2 = none) : p.2 = none := by
  cases hp : p.2 with
  | none => rfl
  | some e => simp [pyseq, hp] at h

lemma pyseq_of_none {p : System × Option String} {f : System → System × Option String}
    (hp : p.2 = none) : pyseq p f = f p.1 := by
  simp [pyseq, hp]

/-- The fields of the freshly-variable-allocated system
`System(...)` followed by `generate_variables()`. -/
lemma freshVars_fields (lines : List TransmissionLine) (sb : ℚ) :
    ((System.init lines sb).generate_variables).transmission_lines = lines ∧
    ((System.init lines sb).generate_variables).s_base = sb ∧
    ((System.init lines sb).generate_variables).x_vars_map = mkVarMap 0 lines ∧
    ((System.init lines sb).generate_variables).generator_vars_map =
      mkVarMap lines.length (plantsOfNodes (nodesOfLines lines)) ∧
    ((System.init lines sb).generate_variables).theta_vars_map =
      mkVarMap (lines.length + (plantsOfNodes (nodesOfLines lines)).length)
        (nodesOfLines lines) ∧
    (∀ i, ((System.init lines sb).generate_variables).x i =
      if i < lines.length then some i else none) ∧
    ((System.init lines sb).generate_variables).model.constrs = [] := by
  refine ⟨rfl, rfl, ?_, ?_, ?_, ?_, rfl⟩ <;>
    simp [System.generate_variables, System.init, GModel.empty,
      System.transmission_line_count, System.power_plant_count,
      System.node_count, System.power_plants, System.nodes]

/-! ## Constraint-count lemmas (for the double-build claim) -/

lemma ppLoop_count (sb : ℚ) (gmap : List (PowerPlant × ℕ)) :
    ∀ (ps : List PowerPlant), (ppLoop sb gmap ps).2 = none →
      (ppLoop sb gmap ps).1.length = 2 * ps.length
  | [], _ => rfl
  | pp :: rest, h => by
    cases hd : pyDiv pp.capacity sb with
    | error e => simp [ppLoop, hd] at h
    | ok cap =>
      cases hg : dictLookup gmap pp with
      | none => simp [ppLoop, hd, hg] at h
      | some gv =>
        have h2 : (ppLoop sb gmap rest).2 = none := by
          simpa [ppLoop, hd, hg] using h
        have ih := ppLoop_count sb gmap rest h2
        simp [ppLoop, hd, hg, ih]
        omega

lemma angleLoop_count : ∀ (ts : List ℕ), (angleLoop ts).length = 2 * ts.length
  | [] => rfl
  | _ :: rest => by simp [angleLoop, angleLoop_count rest]; omega

lemma lineLoop_count (sb : ℚ) (tmap : List (Node × ℕ))
    (xmap : List (TransmissionLine × ℕ)) (b : List ℚ) :
    ∀ (suffix : List TransmissionLine) (i0 : ℕ),
      (lineLoop sb tmap xmap b i0 suffix).2 = none →
      (lineLoop sb tmap xmap b i0 suffix).1.length =
        2 * suffix.length + 2 * suffix.countP (fun l => l.is_real)
  | [], _, _ => rfl
  | line :: rest, i0, h => by
    cases hd : pyDiv line.capacity sb with
    | error e => simp [lineLoop, hd] at h
    | ok cap =>
      cases h1 : dictLookup tmap line.node_start with
      | none => simp [lineLoop, hd, h1] at h
      | some t1 =>
        cases h2 : dictLookup tmap line.node_end with
        | none => simp [lineLoop, hd, h1, h2] at h
        | some t2 =>
          cases h3 : dictLookup xmap line with
          | none => simp [lineLoop, hd, h1, h2, h3] at h
          | some lcv =>
            cases h4 : b[i0]? with
            | none => simp [lineLoop, hd, h1, h2, h3, h4] at h
            | some bi =>
              have h5 : (lineLoop sb tmap xmap b (i0 + 1) rest).2 = none := by
                simpa [lineLoop, hd, h1, h2, h3, h4] using h
              have ih := lineLoop_count sb tmap xmap b rest (i0 + 1) h5
              by_cases hr : line.is_real <;>
                simp [lineLoop, hd, h1, h2, h3, h4, hr, ih, List.countP_cons] <;>
                omega

lemma nodeLoop_count (sb : ℚ) (gmap : List (PowerPlant × ℕ)) (tmap : List (Node × ℕ))
    (xmap : List (TransmissionLine × ℕ)) (b : List ℚ) (lines : List TransmissionLine) :
    ∀ (ns : List Node), (nodeLoop sb gmap tmap xmap b lines ns).2 = none →
      (nodeLoop sb gmap tmap xmap b lines ns).1.length = ns.length
  | [], _ => rfl
  | node :: rest, h => by
    cases hd : pyDiv node.total_load sb with
    | error e => simp [nodeLoop, hd] at h
    | ok lp =>
      cases hg : lookupAll gmap node.power_plants with
      | none => simp [nodeLoop, hd, hg] at h
      | some gs =>
        rcases ht : nodeTermsLoop tmap xmap b node 0 lines with ⟨terms, te⟩
        cases te with
        | some e => simp [nodeLoop, hd, hg, ht] at h
        | none =>
          have h2 : (nodeLoop sb gmap tmap xmap b lines rest).2 = none := by
            simpa [nodeLoop, hd, hg, ht] using h
          have ih := nodeLoop_count sb gmap tmap xmap b lines rest h2
          simp [nodeLoop, hd, hg, ht, ih]

/-! ## Every restriction generator only appends constraints -/

lemma ppr_addConstrs (s : System) :
    ∃ cs, (s.generate_power_plant_restrictions).1 = addConstrs s cs :=
  ⟨_, rfl⟩

lemma angle_addConstrs (s : System) :
    s.generate_angle_restrictions = addConstrs s (angleLoop s.theta) := rfl

lemma lr_addConstrs (s : System) :
    ∃ cs, (s.generate_line_restrictions).1 = addConstrs s cs := by
  cases hsus : s.get_susceptance_matrix with
  | error e =>
    exact ⟨[], by simp [System.generate_line_restrictions, hsus, addConstrs_nil]⟩
  | ok b =>
    exact ⟨(lineLoop s.s_base s.theta_vars_map s.x_vars_map b 0
        s.transmission_lines).1,
      by simp [System.generate_line_restrictions, hsus]⟩

lemma nr_addConstrs (s : System) :
    ∃ cs, (s.generate_node_restrictions).1 = addConstrs s cs := by
  cases hsus : s.get_susceptance_matrix with
  | error e =>
    exact ⟨[], by simp [System.generate_node_restrictions, hsus, addConstrs_nil]⟩
  | ok b =>
    exact ⟨(nodeLoop s.s_base s.generator_vars_map s.theta_vars_map s.x_vars_map b
        s.transmission_lines s.nodes).1,
      by simp [System.generate_node_restrictions, hsus]⟩

lemma pyseq_pair_none (x : System) (f : System → System × Option String) :
    pyseq (x, none) f = f x := rfl

lemma pyseq_addConstrs {p : System × Option String}
    {f : System → System × Option String} {s : System}
    (hp : ∃ cs, p.1 = addConstrs s cs)
    (hf : ∀ t, ∃ cs, (f t).1 = addConstrs t cs) :
    ∃ cs, (pyseq p f).1 = addConstrs s cs := by
  cases he : p.2 with
  | some e =>
    obtain ⟨cs, hcs⟩ := hp
    exact ⟨cs, by simp [pyseq, he, hcs]⟩
  | none =>
    obtain ⟨cs1, hcs1⟩ := hp
    obtain ⟨cs2, hcs2⟩ := hf p.1
    exact ⟨cs1 ++ cs2, by rw [pyseq_of_none he, hcs2, hcs1, addConstrs_addConstrs]⟩

lemma grs_addConstrs (s : System) :
    ∃ cs, (s.generate_restrictions).1 = addConstrs s cs := by
  unfold System.generate_restrictions
  refine pyseq_addConstrs (pyseq_addConstrs (pyseq_addConstrs
    (ppr_addConstrs s) ?_) ?_) ?_
  · exact fun t => ⟨angleLoop t.theta, angle_addConstrs t⟩
  · exact fun t => lr_addConstrs t
  · exact fun t => nr_addConstrs t

/-! ## Constraint growth of one successful build -/

lemma generate_variables_growth (s : System) :
    (s.generate_variables).model.vars.length =
      s.model.vars.length + varDelta s.transmission_lines ∧
    (s.generate_variables).theta.length =
      (nodesOfLines s.transmission_lines).length ∧
    (s.generate_variables).power_plants.length =
      (plantsOfNodes (nodesOfLines s.transmission_lines)).length := by
  refine ⟨?_, ?_, rfl⟩
  · simp [System.generate_variables, varDelta, System.transmission_line_count,
      System.power_plant_count, System.node_count, System.power_plants,
      System.nodes]
    omega
  · simp [System.generate_variables, System.node_count, System.nodes]

lemma lr_growth (s : System) (h : (s.generate_line_restrictions).2 = none) :
    ∃ cs, (s.generate_line_restrictions).1 = addConstrs s cs ∧
      cs.length = 2 * s.transmission_lines.length +
        2 * s.transmission_lines.countP (fun l => l.is_real) := by
  cases hsus : s.get_susceptance_matrix with
  | error e => simp [System.generate_line_restrictions, hsus] at h
  | ok b =>
    have e : s.generate_line_restrictions =
        (addConstrs s (lineLoop s.s_base s.theta_vars_map s.x_vars_map b 0
            s.transmission_lines).1,
          (lineLoop s.s_base s.theta_vars_map s.x_vars_map b 0
            s.transmission_lines).2) := by
      simp [System.generate_line_restrictions, hsus]
    refine ⟨(lineLoop s.s_base s.theta_vars_map s.x_vars_map b 0
      s.transmission_lines).1, ?_, ?_⟩
    · rw [e]
    · apply lineLoop_count
      rw [e] at h
      exact h

lemma nr_growth (s : System) (h : (s.generate_node_restrictions).2 = none) :
    ∃ cs, (s.generate_node_restrictions).1 = addConstrs s cs ∧
      cs.length = (nodesOfLines s.transmission_lines).length := by
  cases hsus : s.get_susceptance_matrix with
  | error e => simp [System.generate_node_restrictions, hsus] at h
  | ok b =>
    have e : s.generate_node_restrictions =
        (addConstrs s (nodeLoop s.s_base s.generator_vars_map s.theta_vars_map
            s.x_vars_map b s.transmission_lines s.nodes).1,
          (nodeLoop s.s_base s.generator_vars_map s.theta_vars_map
            s.x_vars_map b s.transmission_lines s.nodes).2) := by
      simp [System.generate_node_restrictions, hsus]
    refine ⟨(nodeLoop s.s_base s.generator_vars_map s.theta_vars_map s.x_vars_map b
      s.transmission_lines s.nodes).1, ?_, ?_⟩
    · rw [e]
    · apply nodeLoop_count
      rw [e] at h
      exact h

lemma generate_restrictions_growth (s : System)
    (h : (s.generate_restrictions).2 = none) :
    ∃ cs, (s.generate_restrictions).1 = addConstrs s cs ∧
      cs.length = 2 * s.power_plants.length + 2 * s.theta.length +
        (2 * s.transmission_lines.length +
          2 * s.transmission_lines.countP (fun l => l.is_real)) +
        (nodesOfLines s.transmission_lines).length := by
  rw [System.generate_restrictions] at h ⊢
  have h3 : (pyseq (pyseq s.generate_power_plant_restrictions
      (fun s1 => (s1.generate_angle_restrictions, none)))
      (fun s2 => s2.generate_line_restrictions)).2 = none := pyseq_snd_none h
  have h2 : (pyseq s.generate_power_plant_restrictions
      (fun s1 => (s1.generate_angle_restrictions, none))).2 = none := pyseq_snd_none h3
  have h1 : (s.generate_power_plant_restrictions).2 = none := pyseq_snd_none h2
  have hlen1 := ppLoop_count s.s_base s.generator_vars_map s.power_plants h1
  set cs1 := (ppLoop s.s_base s.generator_vars_map s.power_plants).1 with hcs1
  have e1 : (s.generate_power_plant_restrictions).1 = addConstrs s cs1 := rfl
  rw [pyseq_of_none h1, e1] at h3 h ⊢
  rw [pyseq_pair_none] at h3 h ⊢
  have e2 : (addConstrs s cs1).generate_angle_restrictions =
      addConstrs s (cs1 ++ angleLoop s.theta) := by
    rw [angle_addConstrs, addConstrs_addConstrs]
    rfl
  rw [e2] at h3 h ⊢
  have hL : ((addConstrs s (cs1 ++ angleLoop s.theta)).generate_line_restrictions).2
      = none := h3
  obtain ⟨cs3, e3, hlen3⟩ := lr_growth _ hL
  rw [pyseq_of_none hL, e3, addConstrs_addConstrs] at h ⊢
  obtain ⟨cs4, e4, hlen4⟩ := nr_growth _ h
  rw [e4, addConstrs_addConstrs]
  refine ⟨_, rfl, ?_⟩
  have ha := angleLoop_count s.theta
  simp only [List.length_append]
  simp only [addConstrs] at hlen3 hlen4
  omega

/-! ## Behavior of one `optimize()` call -/

lemma optimize_growth (solve : GModel → SolverOutcome) (s : System)
    (h : (System.optimize solve s).2 = none) :
    (System.optimize solve s).1.transmission_lines = s.transmission_lines ∧
    (System.optimize solve s).1.model.vars.length =
      s.model.vars.length + varDelta s.transmission_lines ∧
    (System.optimize solve s).1.model.constrs.length =
      s.model.constrs.length + constrDelta s.transmission_lines := by
  rcases hr : (s.generate_variables).generate_restrictions with ⟨s2, e2⟩
  rw [System.optimize, hr] at h ⊢
  cases e2 with
  | some e => simp at h
  | none =>
    have h2 : ((s.generate_variables).generate_restrictions).2 = none := by
      rw [hr]
    obtain ⟨cs, hcs, hlen⟩ := generate_restrictions_growth (s.generate_variables) h2
    rw [hr] at hcs
    have hg := generate_variables_growth s
    cases ho : objLoop s2.x 0 s2.transmission_lines with
    | none => simp [ho] at h
    | some es =>
      cases hv : objValOf (solve { s2.model with
          objective := some ⟨quicksum es, Sense.minimize⟩ }) with
      | error e => simp [ho, hv] at h
      | ok v =>
        simp only at hcs
        subst hcs
        simp only [ho, hv]
        refine ⟨rfl, ?_, ?_⟩
        · exact hg.1
        · show ((s.generate_variables).model.constrs ++ cs).length =
            s.model.constrs.length + constrDelta s.transmission_lines
          have hc0 : (s.generate_variables).model.constrs = s.model.constrs := rfl
          have ht0 := hg.2.1
          have hp0 := hg.2.2
          rw [List.length_append, hc0]
          rw [ht0, hp0] at hlen
          have hlines : (s.generate_variables).transmission_lines =
            s.transmission_lines := rfl
          rw [hlines] at hlen
          have hpp : (s.generate_variables).power_plants.length =
            (plantsOfNodes (nodesOfLines s.transmission_lines)).length := hp0
          rw [constrDelta]
          omega

lemma optimize_expansion_cost (solve : GModel → SolverOutcome) (s : System) :
    ((System.optimize solve s).2 = none →
      ∃ v, (System.optimize solve s).1.expansion_cost = some v) ∧
    (∀ e, (System.optimize solve s).2 = some e →
      (System.optimize solve s).1.expansion_cost = s.expansion_cost) := by
  rcases hr : (s.generate_variables).generate_restrictions with ⟨s2, e2⟩
  have hs2 : s2.expansion_cost = s.expansion_cost := by
    obtain ⟨cs, hcs⟩ := grs_addConstrs (s.generate_variables)
    rw [hr] at hcs
    simp only at hcs
    rw [hcs]
    rfl
  rw [System.optimize, hr]
  cases e2 with
  | some e =>
    constructor
    · intro h
      simp at h
    · intro e2 h
      simpa using hs2
  | none =>
    cases ho : objLoop s2.x 0 s2.transmission_lines with
    | none =>
      constructor
      · intro h
        simp [ho] at h
      · intro e2 h
        simpa [ho] using hs2
    | some es =>
      cases hv : objValOf (solve { s2.model with
          objective := some ⟨quicksum es, Sense.minimize⟩ }) with
      | error e =>
        constructor
        · intro h
          simp [ho, hv] at h
        · intro e2 h
          simpa [ho, hv] using hs2
      | ok v =>
        constructor
        · intro h
          exact ⟨v, by simp [ho, hv]⟩
        · intro e2 h
          simp [ho, hv] at h

/-! ## Build-success lemmas: on any well-formed input the generated model
build raises nothing -/

lemma generate_variables_maps (s : System) :
    (s.generate_variables).transmission_lines = s.transmission_lines ∧
    (s.generate_variables).s_base = s.s_base ∧
    (s.generate_variables).x_vars_map =
      mkVarMap s.model.vars.length s.transmission_lines ∧
    (s.generate_variables).generator_vars_map =
      mkVarMap (s.model.vars.length + s.transmission_lines.length)
        (plantsOfNodes (nodesOfLines s.transmission_lines)) ∧
    (s.generate_variables).theta_vars_map =
      mkVarMap (s.model.vars.length + s.transmission_lines.length +
        (plantsOfNodes (nodesOfLines s.transmission_lines)).length)
        (nodesOfLines s.transmission_lines) ∧
    (∀ i, (s.generate_variables).x i =
      if i < s.transmission_lines.length then some (s.model.vars.length + i)
      else none) :=
  ⟨rfl, rfl, rfl, rfl, rfl, fun i => rfl⟩

lemma ppLoop_ok (sb : ℚ) (gmap : List (PowerPlant × ℕ)) (gF : PowerPlant → ℕ)
    (hsb : sb ≠ 0) :
    ∀ (ps : List PowerPlant), (∀ pp ∈ ps, dictLookup gmap pp = some (gF pp)) →
      ppLoop sb gmap ps = (ps.flatMap (fun pp =>
        [⟨.var (gF pp), .le, .const (pp.capacity / sb)⟩,
         ⟨.var (gF pp), .ge, .const 0⟩]), none)
  | [], _ => rfl
  | pp :: rest, h => by
    have ih := ppLoop_ok sb gmap gF hsb rest
      (fun q hq => h q (List.mem_cons_of_mem _ hq))
    simp [ppLoop, pyDiv_ok hsb, h pp (List.mem_cons_self _ _), ih]

lemma objLoop_isSome (x : ℕ → Option ℕ) :
    ∀ (suffix : List TransmissionLine) (i0 : ℕ),
      (∀ k, k < suffix.length → (x (i0 + k)).isSome) →
      ∃ es, objLoop x i0 suffix = some es
  | [], _, _ => ⟨[], rfl⟩
  | line :: rest, i0, h => by
    have h0 : (x i0).isSome := by simpa using h 0 (by simp)
    obtain ⟨xi, hxi⟩ := Option.isSome_iff_exists.1 h0
    obtain ⟨es, hes⟩ := objLoop_isSome x rest (i0 + 1) (fun k hk => by
      have h2 := h (k + 1) (by simpa using hk)
      rw [show i0 + 1 + k = i0 + (k + 1) by omega]
      exact h2)
    exact ⟨Expr.mul (.var xi) (.const line.capital_cost) :: es,
      by simp [objLoop, hxi, hes]⟩

lemma pyseq_pair_some (x : System) (e : String)
    (f : System → System × Option String) : pyseq (x, some e) f = (x, some e) := rfl

lemma pp_stage_ok (t : System) (bg : ℕ)
    (hgm : t.generator_vars_map =
      mkVarMap bg (plantsOfNodes (nodesOfLines t.transmission_lines)))
    (hsb : t.s_base ≠ 0)
    (hpd : (plantsOfNodes (nodesOfLines t.transmission_lines)).Nodup) :
    (t.generate_power_plant_restrictions).2 = none := by
  have hlook : ∀ pp ∈ plantsOfNodes (nodesOfLines t.transmission_lines),
      dictLookup t.generator_vars_map pp =
        some (bg + posOf pp (plantsOfNodes (nodesOfLines t.transmission_lines))) := by
    intro pp hp
    rw [hgm]
    exact dictLookup_mkVarMap _ _ hpd hp
  have h := ppLoop_ok t.s_base t.generator_vars_map
    (fun pp => bg + posOf pp (plantsOfNodes (nodesOfLines t.transmission_lines)))
    hsb (plantsOfNodes (nodesOfLines t.transmission_lines)) hlook
  show (ppLoop t.s_base t.generator_vars_map t.power_plants).2 = none
  rw [show t.power_plants = plantsOfNodes (nodesOfLines t.transmission_lines)
    from rfl, h]

lemma line_stage_ok (t : System) (bx bt : ℕ)
    (hxm : t.x_vars_map = mkVarMap bx t.transmission_lines)
    (htm : t.theta_vars_map = mkVarMap bt (nodesOfLines t.transmission_lines))
    (hsb : t.s_base ≠ 0)
    (hre : ∀ l ∈ t.transmission_lines, l.reactance ≠ 0)
    (hnd : t.transmission_lines.Nodup) :
    (t.generate_line_restrictions).2 = none := by
  have hsus := get_susceptance_matrix_ok t hre
  have hb : ∀ (k : ℕ) (l : TransmissionLine), t.transmission_lines[k]? = some l →
      (t.transmission_lines.map (fun l => 1 / l.reactance))[0 + k]? =
        some (1 / l.reactance) := by
    intro k l hk
    simp [List.getElem?_map, hk]
  have ht1 : ∀ l ∈ t.transmission_lines,
      dictLookup t.theta_vars_map l.node_start =
        some (bt + posOf l.node_start (nodesOfLines t.transmission_lines)) := by
    intro l hl
    rw [htm]
    exact dictLookup_mkVarMap _ _ (nodesOfLines_nodup _)
      (node_start_mem_nodesOfLines hl)
  have ht2 : ∀ l ∈ t.transmission_lines,
      dictLookup t.theta_vars_map l.node_end =
        some (bt + posOf l.node_end (nodesOfLines t.transmission_lines)) := by
    intro l hl
    rw [htm]
    exact dictLookup_mkVarMap _ _ (nodesOfLines_nodup _)
      (node_end_mem_nodesOfLines hl)
  have hx : ∀ l ∈ t.transmission_lines,
      dictLookup t.x_vars_map l = some (bx + posOf l t.transmission_lines) := by
    intro l hl
    rw [hxm]
    exact dictLookup_mkVarMap _ _ hnd hl
  have h := lineLoop_ok t.s_base t.theta_vars_map t.x_vars_map
    (t.transmission_lines.map (fun l => 1 / l.reactance))
    (fun n => bt + posOf n (nodesOfLines t.transmission_lines))
    (fun l => bx + posOf l t.transmission_lines)
    hsb t.transmission_lines 0 hb ht1 ht2 hx
  simp only [System.generate_line_restrictions, hsus]
  rw [h]

lemma node_stage_ok (t : System) (bx bg bt : ℕ)
    (hxm : t.x_vars_map = mkVarMap bx t.transmission_lines)
    (hgm : t.generator_vars_map =
      mkVarMap bg (plantsOfNodes (nodesOfLines t.transmission_lines)))
    (htm : t.theta_vars_map = mkVarMap bt (nodesOfLines t.transmission_lines))
    (hsb : t.s_base ≠ 0)
    (hre : ∀ l ∈ t.transmission_lines, l.reactance ≠ 0)
    (hnd : t.transmission_lines.Nodup)
    (hpd : (plantsOfNodes (nodesOfLines t.transmission_lines)).Nodup) :
    (t.generate_node_restrictions).2 = none := by
  have hsus := get_susceptance_matrix_ok t hre
  have hb : ∀ (k : ℕ) (l : TransmissionLine), t.transmission_lines[k]? = some l →
      (t.transmission_lines.map (fun l => 1 / l.reactance))[0 + k]? =
        some (1 / l.reactance) := by
    intro k l hk
    simp [List.getElem?_map, hk]
  have ht1 : ∀ l ∈ t.transmission_lines,
      dictLookup t.theta_vars_map l.node_start =
        some (bt + posOf l.node_start (nodesOfLines t.transmission_lines)) := by
    intro l hl
    rw [htm]
    exact dictLookup_mkVarMap _ _ (nodesOfLines_nodup _)
      (node_start_mem_nodesOfLines hl)
  have ht2 : ∀ l ∈ t.transmission_lines,
      dictLookup t.theta_vars_map l.node_end =
        some (bt + posOf l.node_end (nodesOfLines t.transmission_lines)) := by
    intro l hl
    rw [htm]
    exact dictLookup_mkVarMap _ _ (nodesOfLines_nodup _)
      (node_end_mem_nodesOfLines hl)
  have hx : ∀ l ∈ t.transmission_lines,
      dictLookup t.x_vars_map l = some (bx + posOf l t.transmission_lines) := by
    intro l hl
    rw [hxm]
    exact dictLookup_mkVarMap _ _ hnd hl
  have hterms : ∀ n : Node,
      nodeTermsLoop t.theta_vars_map t.x_vars_map
        (t.transmission_lines.map (fun l => 1 / l.reactance)) n 0
        t.transmission_lines =
      (claimNodeTerms (fun m => bt + posOf m (nodesOfLines t.transmission_lines))
        (fun l => bx + posOf l t.transmission_lines) n t.transmission_lines,
        none) := fun n =>
    nodeTermsLoop_ok t.theta_vars_map t.x_vars_map _ n _ _
      t.transmission_lines 0 hb ht1 ht2 hx
  have hgl : ∀ n ∈ t.nodes, ∀ pp ∈ n.power_plants,
      dictLookup t.generator_vars_map pp =
        some (bg + posOf pp (plantsOfNodes (nodesOfLines t.transmission_lines))) := by
    intro n hn pp hp
    rw [hgm]
    exact dictLookup_mkVarMap _ _ hpd (mem_plantsOfNodes hn hp)
  have h := nodeLoop_ok t.s_base t.generator_vars_map t.theta_vars_map
    t.x_vars_map (t.transmission_lines.map (fun l => 1 / l.reactance))
    t.transmission_lines
    (fun pp => bg + posOf pp (plantsOfNodes (nodesOfLines t.transmission_lines)))
    (fun m => bt + posOf m (nodesOfLines t.transmission_lines))
    (fun l => bx + posOf l t.transmission_lines)
    hsb hterms t.nodes hgl
  simp only [System.generate_node_restrictions, hsus]
  rw [h]

lemma restrictions_stage_ok (s : System) (hsb : s.s_base ≠ 0)
    (hre : ∀ l ∈ s.transmission_lines, l.reactance ≠ 0)
    (hnd : s.transmission_lines.Nodup)
    (hpd : (plantsOfNodes (nodesOfLines s.transmission_lines)).Nodup) :
    ((s.generate_variables).generate_restrictions).2 = none := by
  have hpp : ((s.generate_variables).generate_power_plant_restrictions).2 = none :=
    pp_stage_ok (s.generate_variables)
      (s.model.vars.length + s.transmission_lines.length) rfl hsb hpd
  rw [System.generate_restrictions, pyseq_of_none hpp, pyseq_pair_none]
  have hline : ((((s.generate_variables).generate_power_plant_restrictions).1.generate_angle_restrictions).generate_line_restrictions).2 = none :=
    line_stage_ok _ s.model.vars.length
      (s.model.vars.length + s.transmission_lines.length +
        (plantsOfNodes (nodesOfLines s.transmission_lines)).length)
      rfl rfl hsb hre hnd
  rw [pyseq_of_none hline]
  obtain ⟨cs3, hc3⟩ := lr_addConstrs
    (((s.generate_variables).generate_power_plant_restrictions).1.generate_angle_restrictions)
  rw [hc3]
  exact node_stage_ok _ s.model.vars.length
    (s.model.vars.length + s.transmission_lines.length)
    (s.model.vars.length + s.transmission_lines.length +
      (plantsOfNodes (nodesOfLines s.transmission_lines)).length)
    rfl rfl rfl hsb hre hnd hpd

lemma optimize_optimal_ok (s : System) (v : ℚ) (hsb : s.s_base ≠ 0)
    (hre : ∀ l ∈ s.transmission_lines, l.reactance ≠ 0)
    (hnd : s.transmission_lines.Nodup)
    (hpd : (plantsOfNodes (nodesOfLines s.transmission_lines)).Nodup) :
    (System.optimize (fun _ => SolverOutcome.optimal v) s).2 = none := by
  have hres := restrictions_stage_ok s hsb hre hnd hpd
  rcases hr : (s.generate_variables).generate_restrictions with ⟨s2, e2⟩
  rw [hr] at hres
  cases e2 with
  | some e => simp at hres
  | none =>
    obtain ⟨cs, hcs⟩ := grs_addConstrs (s.generate_variables)
    rw [hr] at hcs
    simp only at hcs
    rw [System.optimize, hr]
    have hx2 : ∀ k, k < s2.transmission_lines.length → (s2.x k).isSome := by
      intro k hk
      rw [hcs] at hk ⊢
      show ((s.generate_variables).x k).isSome
      have hfm := (generate_variables_maps s).2.2.2.2.2 k
      rw [hfm]
      have hk2 : k < s.transmission_lines.length := hk
      simp [hk2]
    obtain ⟨es, hes⟩ := objLoop_isSome s2.x s2.transmission_lines 0
      (fun k hk => by simpa using hx2 k hk)
    simp [hes, objValOf]

lemma optimize_fields (solve : GModel → SolverOutcome) (s : System) :
    (System.optimize solve s).1.transmission_lines = s.transmission_lines ∧
    (System.optimize solve s).1.s_base = s.s_base := by
  rcases hr : (s.generate_variables).generate_restrictions with ⟨s2, e2⟩
  obtain ⟨cs, hcs⟩ := grs_addConstrs (s.generate_variables)
  rw [hr] at hcs
  simp only at hcs
  subst hcs
  rw [System.optimize, hr]
  cases e2 with
  | some e => exact ⟨rfl, rfl⟩
  | none =>
    cases ho : objLoop (addConstrs (s.generate_variables) cs).x 0
        (addConstrs (s.generate_variables) cs).transmission_lines with
    | none => simp [ho]; exact ⟨rfl, rfl⟩
    | some es =>
      cases hv : objValOf (solve { (addConstrs (s.generate_variables) cs).model with
          objective := some ⟨quicksum es, Sense.minimize⟩ }) with
      | error e => simp [ho, hv]; exact ⟨rfl, rfl⟩
      | ok v => simp [ho, hv]; exact ⟨rfl, rfl⟩

/-! ## Claim theorems -/

/-- Claim C8: for every `TransmissionLine`, the derived attribute
`capital_cost` equals `cost_per_mile * length`; in particular a line with
`length = 40` and the default `cost_per_mile = 1e6` has
`capital_cost = 4e7`. -/
theorem capital_cost_formula :
    (∀ l : TransmissionLine, l.capital_cost = l.cost_per_mile * l.length) ∧
    ({ _id := "w", capacity := 100, reactance := 2, node_start := nodeA,
        node_end := nodeB, length := 40 } : TransmissionLine).capital_cost
      = 40000000 := by
  constructor
  · intro l
    rfl
  · show (1000000 : ℚ) * 40 = 40000000
    norm_num

/-- Claim C9: a Node with an empty load list has `total_load = 0` and a
Node with an empty plant list has `total_generation_capacity = 0`
(summing the empty collection yields zero, not an error); consequently a
node with neither loads nor plants contributes a zero load constant and an
empty generator sum to its balance constraint. -/
theorem empty_node_zero_sums :
    (∀ (i : ℤ) (ps : List PowerPlant), (Node.mk i [] ps).total_load = 0) ∧
    (∀ (i : ℤ) (ls : List Load),
      (Node.mk i ls []).total_generation_capacity = 0) ∧
    (∀ (lines : List TransmissionLine) (sb : ℚ) (i : ℤ),
      claimNodeConstr lines sb (Node.mk i [] []) =
        ⟨.sub (.sub (quicksum []) (.const 0))
            (quicksum (claimNodeTerms (thetaIndexOf lines) (xIndexOf lines)
              (Node.mk i [] []) lines)),
          .eqc, .const 0⟩) := by
  refine ⟨fun i ps => rfl, fun i ls => rfl, fun lines sb i => ?_⟩
  simp [claimNodeConstr, Node.total_load]

/-- Claim C5 counterexample: Node equality is NOT determined by id alone.
`nodeSameIdA` and `nodeSameIdB` have equal ids but unequal loads, the
dataclass `__eq__` reports them different, and the endpoints of a line
joining them do NOT collapse to a single node in `System.nodes`. -/
theorem node_id_equality_refuted :
    nodeSameIdA._id = nodeSameIdB._id ∧
    Node.pyEq nodeSameIdA nodeSameIdB = false ∧
    (System.init [sameIdLine] 100).nodes.length = 2 := by
  refine ⟨rfl, ?_, ?_⟩
  · with_unfolding_all decide
  · with_unfolding_all decide

/-- Claim C5 amended: `Node.__hash__` is determined by id alone, but the
dataclass-generated `Node.__eq__` compares all fields; two Node instances
compare equal iff id, loads and plants all agree, and the aggregated node
set of a System collapses two endpoints of a line exactly when they are
equal on all fields. -/
theorem node_eq_fieldwise_hash_by_id :
    (∀ a b : Node, Node.pyEq a b = true ↔ a = b) ∧
    (∀ a b : Node, a._id = b._id → Node.pyHash a = Node.pyHash b) ∧
    (∀ (l : TransmissionLine) (sb : ℚ),
      (System.init [l] sb).nodes =
        if l.node_start = l.node_end then [l.node_start]
        else [l.node_start, l.node_end]) := by
  refine ⟨?_, ?_, ?_⟩
  · intro a b
    cases a with
    | mk ai al ap =>
      cases b with
      | mk bi bl bp =>
        simp [Node.pyEq, Node.mk.injEq, Bool.and_eq_true, decide_eq_true_eq,
          and_assoc]
  · intro a b h
    simpa [Node.pyHash] using h
  · intro l sb
    by_cases h : l.node_start = l.node_end
    · simp [System.nodes, System.init, nodesOfLines, nodeStep, addUnique, h]
    · have h2 : ¬(l.node_end = l.node_start) := fun e => h e.symm
      simp [System.nodes, System.init, nodesOfLines, nodeStep, addUnique, h, h2]

/-- Witness for the amended C5 theorem at concrete nodes and a concrete
line. -/
theorem node_eq_fieldwise_hash_by_id_witness :
    Node.pyEq nodeA nodeA = true ∧
    Node.pyHash nodeSameIdA = Node.pyHash nodeSameIdB ∧
    (System.init [demoLine] 100).nodes = [nodeA, nodeB] := by
  refine ⟨(node_eq_fieldwise_hash_by_id.1 nodeA nodeA).mpr rfl,
    node_eq_fieldwise_hash_by_id.2.1 nodeSameIdA nodeSameIdB (by rfl), ?_⟩
  have h := node_eq_fieldwise_hash_by_id.2.2 demoLine 100
  rw [h]
  with_unfolding_all decide

/-- Claim C10: `expansion_cost` is `None` from construction onward; every
model-building method leaves `expansion_cost`, `transmission_lines` and
`s_base` unchanged; an `optimize()` call that raises leaves
`expansion_cost` unchanged, and only a completed `optimize()` assigns it. -/
theorem expansion_cost_lifecycle :
    (∀ (lines : List TransmissionLine) (sb : ℚ),
      (System.init lines sb).expansion_cost = none) ∧
    (∀ s : System,
      (s.generate_variables).expansion_cost = s.expansion_cost ∧
      (s.generate_variables).transmission_lines = s.transmission_lines ∧
      (s.generate_variables).s_base = s.s_base) ∧
    (∀ s : System,
      (s.generate_power_plant_restrictions).1.expansion_cost = s.expansion_cost ∧
      (s.generate_power_plant_restrictions).1.transmission_lines =
        s.transmission_lines ∧
      (s.generate_power_plant_restrictions).1.s_base = s.s_base) ∧
    (∀ s : System,
      (s.generate_angle_restrictions).expansion_cost = s.expansion_cost ∧
      (s.generate_angle_restrictions).transmission_lines = s.transmission_lines ∧
      (s.generate_angle_restrictions).s_base = s.s_base) ∧
    (∀ s : System,
      (s.generate_line_restrictions).1.expansion_cost = s.expansion_cost ∧
      (s.generate_line_restrictions).1.transmission_lines = s.transmission_lines ∧
      (s.generate_line_restrictions).1.s_base = s.s_base) ∧
    (∀ s : System,
      (s.generate_node_restrictions).1.expansion_cost = s.expansion_cost ∧
      (s.generate_node_restrictions).1.transmission_lines = s.transmission_lines ∧
      (s.generate_node_restrictions).1.s_base = s.s_base) ∧
    (∀ s : System,
      (s.generate_restrictions).1.expansion_cost = s.expansion_cost ∧
      (s.generate_restrictions).1.transmission_lines = s.transmission_lines ∧
      (s.generate_restrictions).1.s_base = s.s_base) ∧
    (∀ (solve : GModel → SolverOutcome) (s : System) (e : String),
      (System.optimize solve s).2 = some e →
      (System.optimize solve s).1.expansion_cost = s.expansion_cost) ∧
    (∀ (solve : GModel → SolverOutcome) (s : System),
      (System.optimize solve s).2 = none →
      ∃ v, (System.optimize solve s).1.expansion_cost = some v) := by
  refine ⟨fun lines sb => rfl, fun s => ⟨rfl, rfl, rfl⟩,
    fun s => ⟨rfl, rfl, rfl⟩, fun s => ⟨rfl, rfl, rfl⟩, ?_, ?_, ?_, ?_, ?_⟩
  · intro s
    obtain ⟨cs, hc⟩ := lr_addConstrs s
    rw [hc]
    exact ⟨rfl, rfl, rfl⟩
  · intro s
    obtain ⟨cs, hc⟩ := nr_addConstrs s
    rw [hc]
    exact ⟨rfl, rfl, rfl⟩
  · intro s
    obtain ⟨cs, hc⟩ := grs_addConstrs s
    rw [hc]
    exact ⟨rfl, rfl, rfl⟩
  · intro solve s e h
    exact (optimize_expansion_cost solve s).2 e h
  · intro solve s h
    exact (optimize_expansion_cost solve s).1 h

/-- Witness for C10 at the concrete two-line network: a fresh system has
no expansion cost, and a completed optimize() call assigns one. -/
theorem expansion_cost_lifecycle_witness :
    (System.init demoLines 100).expansion_cost = none ∧
    (∃ v, (System.optimize (fun _ => SolverOutcome.optimal 10000000)
      (System.init demoLines 100)).1.expansion_cost = some v) :=
  ⟨expansion_cost_lifecycle.1 demoLines 100,
    expansion_cost_lifecycle.2.2.2.2.2.2.2.2
      (fun _ => SolverOutcome.optimal 10000000) (System.init demoLines 100)
      (optimize_optimal_ok (System.init demoLines 100) 10000000
        (by norm_num [System.init])
        (by with_unfolding_all decide)
        (by with_unfolding_all decide)
        (by with_unfolding_all decide))⟩

/-- Claim C1: for every transmission line `i` with susceptance
`b_i = 1/reactance_i` and per-unit capacity `cap_i = capacity_i/s_base`,
constraint generation emits the two bilinear flow limits
`-b_i·(θ_start-θ_end)·x_i ≤ cap_i` and `-b_i·(θ_end-θ_start)·x_i ≤ cap_i`
regardless of `is_real`, and, exactly when `is_real` is true, additionally
the same two inequalities without the `x_i` multiplier — and nothing else. -/
theorem line_restrictions_match_spec (lines : List TransmissionLine) (sb : ℚ)
    (hsb : sb ≠ 0) (hre : ∀ l ∈ lines, l.reactance ≠ 0) (hnd : lines.Nodup) :
    ((System.init lines sb).generate_variables).generate_line_restrictions =
      (addConstrs ((System.init lines sb).generate_variables)
        (claimLineConstrs lines sb), none) := by
  obtain ⟨hL, hS, hXm, hGm, hTm, hXf, hC⟩ := freshVars_fields lines sb
  set s1 := (System.init lines sb).generate_variables with hs1
  have hsus : s1.get_susceptance_matrix =
      .ok (lines.map (fun l => 1 / l.reactance)) := by
    have h := get_susceptance_matrix_ok s1 (by rw [hL]; exact hre)
    rw [hL] at h
    exact h
  have hb : ∀ (k : ℕ) (l : TransmissionLine), lines[k]? = some l →
      (lines.map (fun l => 1 / l.reactance))[0 + k]? = some (1 / l.reactance) := by
    intro k l hk
    simp [List.getElem?_map, hk]
  have ht1 : ∀ l ∈ lines, dictLookup s1.theta_vars_map l.node_start =
      some (thetaIndexOf lines l.node_start) := by
    intro l hl
    rw [hTm]
    exact dictLookup_mkVarMap _ _ (nodesOfLines_nodup lines)
      (node_start_mem_nodesOfLines hl)
  have ht2 : ∀ l ∈ lines, dictLookup s1.theta_vars_map l.node_end =
      some (thetaIndexOf lines l.node_end) := by
    intro l hl
    rw [hTm]
    exact dictLookup_mkVarMap _ _ (nodesOfLines_nodup lines)
      (node_end_mem_nodesOfLines hl)
  have hx : ∀ l ∈ lines, dictLookup s1.x_vars_map l =
      some (xIndexOf lines l) := by
    intro l hl
    rw [hXm]
    have h := dictLookup_mkVarMap lines 0 hnd hl
    simpa [xIndexOf] using h
  have h := lineLoop_ok sb s1.theta_vars_map s1.x_vars_map
    (lines.map (fun l => 1 / l.reactance)) (thetaIndexOf lines) (xIndexOf lines)
    hsb lines 0 hb ht1 ht2 hx
  show s1.generate_line_restrictions = _
  simp only [System.generate_line_restrictions, hsus]
  rw [show s1.s_base = sb from hS, show s1.transmission_lines = lines from hL, h]
  rfl

/-- Witness for C1 at the concrete two-line network. -/
theorem line_restrictions_match_spec_witness :
    ((System.init demoLines 100).generate_variables).generate_line_restrictions =
      (addConstrs ((System.init demoLines 100).generate_variables)
        (claimLineConstrs demoLines 100), none) :=
  line_restrictions_match_spec demoLines 100 (by norm_num)
    (by with_unfolding_all decide) (by with_unfolding_all decide)

/-- Claim C2: for every node, constraint generation emits one equality
constraint `Σ(generation at n) - total_load/s_base - Σ(line terms) = 0`,
where every incident line contributes the signed `x`-weighted term
`b_i·(θ_n-θ_other)·x_i` and every `is_real` incident line additionally
contributes the same term without the `x_i` weight (an existing line's
flow appears twice). -/
theorem node_restrictions_match_spec (lines : List TransmissionLine) (sb : ℚ)
    (hsb : sb ≠ 0) (hre : ∀ l ∈ lines, l.reactance ≠ 0) (hnd : lines.Nodup)
    (hpd : (plantsOfNodes (nodesOfLines lines)).Nodup) :
    ((System.init lines sb).generate_variables).generate_node_restrictions =
      (addConstrs ((System.init lines sb).generate_variables)
        ((nodesOfLines lines).map (claimNodeConstr lines sb)), none) := by
  obtain ⟨hL, hS, hXm, hGm, hTm, hXf, hC⟩ := freshVars_fields lines sb
  set s1 := (System.init lines sb).generate_variables with hs1
  have hsus : s1.get_susceptance_matrix =
      .ok (lines.map (fun l => 1 / l.reactance)) := by
    have h := get_susceptance_matrix_ok s1 (by rw [hL]; exact hre)
    rw [hL] at h
    exact h
  have hb : ∀ (k : ℕ) (l : TransmissionLine), lines[k]? = some l →
      (lines.map (fun l => 1 / l.reactance))[0 + k]? = some (1 / l.reactance) := by
    intro k l hk
    simp [List.getElem?_map, hk]
  have ht1 : ∀ l ∈ lines, dictLookup s1.theta_vars_map l.node_start =
      some (thetaIndexOf lines l.node_start) := by
    intro l hl
    rw [hTm]
    exact dictLookup_mkVarMap _ _ (nodesOfLines_nodup lines)
      (node_start_mem_nodesOfLines hl)
  have ht2 : ∀ l ∈ lines, dictLookup s1.theta_vars_map l.node_end =
      some (thetaIndexOf lines l.node_end) := by
    intro l hl
    rw [hTm]
    exact dictLookup_mkVarMap _ _ (nodesOfLines_nodup lines)
      (node_end_mem_nodesOfLines hl)
  have hx : ∀ l ∈ lines, dictLookup s1.x_vars_map l =
      some (xIndexOf lines l) := by
    intro l hl
    rw [hXm]
    have h := dictLookup_mkVarMap lines 0 hnd hl
    simpa [xIndexOf] using h
  have hterms : ∀ n : Node,
      nodeTermsLoop s1.theta_vars_map s1.x_vars_map
        (lines.map (fun l => 1 / l.reactance)) n 0 lines =
      (claimNodeTerms (thetaIndexOf lines) (xIndexOf lines) n lines, none) :=
    fun n => nodeTermsLoop_ok s1.theta_vars_map s1.x_vars_map _ n _ _
      lines 0 hb ht1 ht2 hx
  have hgl : ∀ n ∈ nodesOfLines lines, ∀ pp ∈ n.power_plants,
      dictLookup s1.generator_vars_map pp = some (genIndexOf lines pp) := by
    intro n hn pp hp
    rw [hGm]
    exact dictLookup_mkVarMap _ _ hpd (mem_plantsOfNodes hn hp)
  have h := nodeLoop_ok sb s1.generator_vars_map s1.theta_vars_map s1.x_vars_map
    (lines.map (fun l => 1 / l.reactance)) lines (genIndexOf lines)
    (thetaIndexOf lines) (xIndexOf lines) hsb hterms (nodesOfLines lines) hgl
  have hN : s1.nodes = nodesOfLines lines := by
    show nodesOfLines s1.transmission_lines = nodesOfLines lines
    rw [hL]
  show s1.generate_node_restrictions = _
  simp only [System.generate_node_restrictions, hsus]
  rw [show s1.s_base = sb from hS, show s1.transmission_lines = lines from hL,
    hN, h]
  rfl

/-- Witness for C2 at the concrete two-line network. -/
theorem node_restrictions_match_spec_witness :
    ((System.init demoLines 100).generate_variables).generate_node_restrictions =
      (addConstrs ((System.init demoLines 100).generate_variables)
        ((nodesOfLines demoLines).map (claimNodeConstr demoLines 100)), none) :=
  node_restrictions_match_spec demoLines 100 (by norm_num)
    (by with_unfolding_all decide) (by with_unfolding_all decide)
    (by with_unfolding_all decide)

/-- Claim C3: the objective set on the problem is the minimization of
`Σ_i x_i · capital_cost_i` over all lines; no line is excluded on account
of `is_real` (the term list has one entry per input line). -/
theorem objective_minimizes_total_capital_cost (lines : List TransmissionLine)
    (sb : ℚ) (solve : GModel → SolverOutcome)
    (h : (((System.init lines sb).generate_variables).generate_restrictions).2
      = none) :
    (System.optimize solve (System.init lines sb)).1.model.objective =
      some ⟨quicksum (claimObjTerms 0 lines), Sense.minimize⟩ ∧
    (claimObjTerms 0 lines).length = lines.length := by
  refine ⟨?_, claimObjTerms_length lines 0⟩
  rcases hr : ((System.init lines sb).generate_variables).generate_restrictions
    with ⟨s2, e2⟩
  rw [hr] at h
  cases e2 with
  | some e => simp at h
  | none =>
    obtain ⟨cs, hcs⟩ := grs_addConstrs ((System.init lines sb).generate_variables)
    rw [hr] at hcs
    simp only at hcs
    subst hcs
    have hx2 : ∀ k, k < lines.length →
        (addConstrs ((System.init lines sb).generate_variables) cs).x (0 + k) =
          some (0 + k) := by
      intro k hk
      show ((System.init lines sb).generate_variables).x (0 + k) = some (0 + k)
      rw [(freshVars_fields lines sb).2.2.2.2.2.1]
      have hk2 : 0 + k < lines.length := by omega
      simp [hk2, hk]
    have hobj : objLoop
        (addConstrs ((System.init lines sb).generate_variables) cs).x 0
        (addConstrs ((System.init lines sb).generate_variables) cs).transmission_lines
        = some (claimObjTerms 0 lines) := by
      rw [show (addConstrs ((System.init lines sb).generate_variables) cs).transmission_lines = lines from rfl]
      exact objLoop_ok _ lines 0 hx2
    rw [System.optimize, hr]
    cases hv : objValOf (solve
        { (addConstrs ((System.init lines sb).generate_variables) cs).model with
          objective := some ⟨quicksum (claimObjTerms 0 lines), Sense.minimize⟩ }) with
    | error e => simp [hobj, hv]
    | ok v => simp [hobj, hv]

/-- Witness for C3 at the concrete two-line network. -/
theorem objective_minimizes_total_capital_cost_witness :
    (System.optimize (fun _ => SolverOutcome.optimal 10000000)
      (System.init demoLines 100)).1.model.objective =
      some ⟨quicksum (claimObjTerms 0 demoLines), Sense.minimize⟩ ∧
    (claimObjTerms 0 demoLines).length = demoLines.length :=
  objective_minimizes_total_capital_cost demoLines 100
    (fun _ => SolverOutcome.optimal 10000000)
    (restrictions_stage_ok (System.init demoLines 100)
      (by norm_num [System.init]) (by with_unfolding_all decide)
      (by with_unfolding_all decide) (by with_unfolding_all decide))

/-- Claim C7: calling `optimize()` twice on the same System instance
without resetting the underlying problem duplicates the model: the second
call re-adds a full second set of decision variables and constraints to
the same handle, so the model ends with exactly twice as many of each. -/
theorem optimize_twice_duplicates (lines : List TransmissionLine) (sb : ℚ)
    (solve : GModel → SolverOutcome) (hne : lines ≠ [])
    (h1 : (System.optimize solve (System.init lines sb)).2 = none)
    (h2 : (System.optimize solve
      ((System.optimize solve (System.init lines sb)).1)).2 = none) :
    (System.optimize solve
        ((System.optimize solve (System.init lines sb)).1)).1.model.vars.length =
      2 * (System.optimize solve (System.init lines sb)).1.model.vars.length ∧
    (System.optimize solve
        ((System.optimize solve (System.init lines sb)).1)).1.model.constrs.length =
      2 * (System.optimize solve (System.init lines sb)).1.model.constrs.length ∧
    0 < (System.optimize solve (System.init lines sb)).1.model.vars.length := by
  obtain ⟨hl1, hv1, hc1⟩ := optimize_growth solve _ h1
  obtain ⟨hl2, hv2, hc2⟩ := optimize_growth solve _ h2
  have hIl : (System.init lines sb).transmission_lines = lines := rfl
  have h0v : (System.init lines sb).model.vars.length = 0 := rfl
  have h0c : (System.init lines sb).model.constrs.length = 0 := rfl
  rw [hIl] at hv1 hc1
  rw [h0v] at hv1
  rw [h0c] at hc1
  rw [hl1, hIl] at hv2 hc2
  have hpos : 0 < varDelta lines := by
    have hlen : 0 < lines.length := List.length_pos.2 hne
    unfold varDelta
    omega
  refine ⟨by omega, by omega, by omega⟩

/-- Witness for C7 at the concrete two-line network with a solver stub
that always reports an optimal solution. -/
theorem optimize_twice_duplicates_witness :
    (System.optimize (fun _ => SolverOutcome.optimal 0)
        ((System.optimize (fun _ => SolverOutcome.optimal 0)
          (System.init demoLines 100)).1)).1.model.vars.length =
      2 * (System.optimize (fun _ => SolverOutcome.optimal 0)
        (System.init demoLines 100)).1.model.vars.length ∧
    (System.optimize (fun _ => SolverOutcome.optimal 0)
        ((System.optimize (fun _ => SolverOutcome.optimal 0)
          (System.init demoLines 100)).1)).1.model.constrs.length =
      2 * (System.optimize (fun _ => SolverOutcome.optimal 0)
        (System.init demoLines 100)).1.model.constrs.length ∧
    0 < (System.optimize (fun _ => SolverOutcome.optimal 0)
      (System.init demoLines 100)).1.model.vars.length :=
  optimize_twice_duplicates demoLines 100 (fun _ => SolverOutcome.optimal 0)
    (by with_unfolding_all decide)
    (optimize_optimal_ok (System.init demoLines 100) 0
      (by norm_num [System.init]) (by with_unfolding_all decide)
      (by with_unfolding_all decide) (by with_unfolding_all decide))
    (optimize_optimal_ok
      ((System.optimize (fun _ => SolverOutcome.optimal 0)
        (System.init demoLines 100)).1) 0
      (by rw [(optimize_fields (fun _ => SolverOutcome.optimal 0)
          (System.init demoLines 100)).2]; norm_num [System.init])
      (by rw [(optimize_fields (fun _ => SolverOutcome.optimal 0)
          (System.init demoLines 100)).1]; with_unfolding_all decide)
      (by rw [(optimize_fields (fun _ => SolverOutcome.optimal 0)
          (System.init demoLines 100)).1]; with_unfolding_all decide)
      (by rw [(optimize_fields (fun _ => SolverOutcome.optimal 0)
          (System.init demoLines 100)).1]; with_unfolding_all decide))

/-- Claim C4 (failing evaluation): on a zero-reactance line, `optimize()`
creates all decision variables first and only then raises
`ZeroDivisionError` inside `generate_line_restrictions`; on a negative
reactance no error is raised at all.  The code therefore does not fail
fast before variable creation. -/
theorem reactance_validation_missing :
    ((System.optimize (fun _ => SolverOutcome.optimal 0)
        (System.init [zeroReactanceLine] 100)).2 =
      some "ZeroDivisionError: float division by zero" ∧
     (System.optimize (fun _ => SolverOutcome.optimal 0)
        (System.init [zeroReactanceLine] 100)).1.model.vars.length = 4) ∧
    (System.optimize (fun _ => SolverOutcome.optimal 0)
        (System.init [negReactanceLine] 100)).2 = none := by
  constructor
  · have hpp : (((System.init [zeroReactanceLine] 100).generate_variables).generate_power_plant_restrictions).2 = none :=
      pp_stage_ok _ _ rfl (show (100 : ℚ) ≠ 0 by norm_num)
        (by with_unfolding_all decide)
    have hsusE : ((((System.init [zeroReactanceLine] 100).generate_variables).generate_power_plant_restrictions).1.generate_angle_restrictions).get_susceptance_matrix =
        .error "ZeroDivisionError: float division by zero" := by
      show susLoop [zeroReactanceLine] = _
      with_unfolding_all rfl
    have hline : ((((System.init [zeroReactanceLine] 100).generate_variables).generate_power_plant_restrictions).1.generate_angle_restrictions).generate_line_restrictions =
        ((((System.init [zeroReactanceLine] 100).generate_variables).generate_power_plant_restrictions).1.generate_angle_restrictions,
          some "ZeroDivisionError: float division by zero") := by
      simp only [System.generate_line_restrictions, hsusE]
    have hres : ((System.init [zeroReactanceLine] 100).generate_variables).generate_restrictions =
        ((((System.init [zeroReactanceLine] 100).generate_variables).generate_power_plant_restrictions).1.generate_angle_restrictions,
          some "ZeroDivisionError: float division by zero") := by
      rw [System.generate_restrictions, pyseq_of_none hpp, pyseq_pair_none, hline,
        pyseq_pair_some]
    constructor
    · rw [System.optimize, hres]
    · rw [System.optimize, hres]
      with_unfolding_all rfl
  · exact optimize_optimal_ok (System.init [negReactanceLine] 100) 0
      (by norm_num [System.init]) (by with_unfolding_all decide)
      (by with_unfolding_all decide) (by with_unfolding_all decide)

/-- Claim C6 (failing evaluation): when the solver reports infeasibility,
`optimize()` raises from the unconditional `objVal` read instead of
surfacing a distinct status; `expansion_cost` does remain `None`. -/
theorem infeasibility_crashes_on_objval_read :
    (System.optimize (fun _ => SolverOutcome.infeasible)
        (System.init demoLines 100)).2 =
      some "AttributeError: unable to retrieve attribute objVal" ∧
    (System.optimize (fun _ => SolverOutcome.infeasible)
        (System.init demoLines 100)).1.expansion_cost = none := by
  have hres := restrictions_stage_ok (System.init demoLines 100)
    (by norm_num [System.init]) (by with_unfolding_all decide)
    (by with_unfolding_all decide) (by with_unfolding_all decide)
  rcases hr : ((System.init demoLines 100).generate_variables).generate_restrictions
    with ⟨s2, e2⟩
  rw [hr] at hres
  cases e2 with
  | some e => simp at hres
  | none =>
    obtain ⟨cs, hcs⟩ := grs_addConstrs
      ((System.init demoLines 100).generate_variables)
    rw [hr] at hcs
    simp only at hcs
    subst hcs
    have hx2 : ∀ k, k < (addConstrs ((System.init demoLines 100).generate_variables) cs).transmission_lines.length →
        (((addConstrs ((System.init demoLines 100).generate_variables) cs).x) (0 + k)).isSome := by
      intro k hk
      show (((System.init demoLines 100).generate_variables).x (0 + k)).isSome
      rw [(generate_variables_maps (System.init demoLines 100)).2.2.2.2.2]
      have hk3 : k < (System.init demoLines 100).transmission_lines.length := hk
      have hk2 : 0 + k < (System.init demoLines 100).transmission_lines.length := by
        omega
      simp [hk2, hk3]
    obtain ⟨es, hes⟩ := objLoop_isSome _ _ 0 hx2
    rw [System.optimize, hr]
    constructor
    · simp only [hes, objValOf]
    · simp only [hes, objValOf]
      rfl

end TEPE
